import Mathlib

/-!
Shallow embedding of `src/ml/predict.py` (plantgo-backend).

The script is a command-line inference wrapper: it reads a base64 payload
from the file named by `sys.argv[1]`, decodes it to image bytes, decodes
and resizes the image, normalizes it to a `(1, 150, 150, 3)` tensor, loads
a Keras model from a fixed path, runs one forward pass, and prints
`<label>|<confidence:.4f>`.

Modelling choices:
* Python floats are modelled as `ℚ`; `numpy` arrays as (nested) lists.
* External library calls (file I/O, `base64.b64decode`, PIL image decoding
  and resampling, `tensorflow.keras.models.load_model`, `model.predict`)
  are oracle parameters bundled in `Oracles`; each fallible call returns
  `Except String _`, the error string standing for the raised exception.
* `RunResult` records the lines printed to stdout together with how the
  process ended: `exited` (normal `sys.exit`/fall-through) or `crashed`
  (unhandled exception propagating out of `main`).
-/

namespace Predict

/-- Line 12 of predict.py: the fixed model path. -/
def model_path : String := "ml/flower3.keras"

/-- Line 13 of predict.py: the fixed class names. -/
def class_names : List String := ["Marigold", "Scarlet Sage"]

/-- Whitespace characters stripped by Python `str.strip()` (the ASCII set
plus the latin-1 ones; full Python also strips other Unicode space
characters, which never occur in base64 payload files). -/
def isPyWhitespace (c : Char) : Bool :=
  c = ' ' || c = '\t' || c = '\n' || c = '\r' || c = '\x0b' || c = '\x0c' ||
  c = '\x1c' || c = '\x1d' || c = '\x1e' || c = '\x1f' || c = '\x85' || c = '\xa0'

/-- Python `str.strip()`: drop leading and trailing whitespace (line 29). -/
def pyStrip (s : String) : String :=
  String.mk (((s.data.dropWhile isPyWhitespace).reverse.dropWhile isPyWhitespace).reverse)

/-- Helper for `rowArgmax`: scan the remaining entries, keeping the index
`bi` and value `bv` of the best entry seen so far; a later entry replaces
the champion only when strictly greater, so ties keep the lowest index
(numpy first-occurrence convention). -/
def argmaxFrom : List ℚ → Nat → Nat → ℚ → Nat
  | [], _, bi, _ => bi
  | x :: xs, i, bi, bv => if bv < x then argmaxFrom xs (i + 1) i x else argmaxFrom xs (i + 1) bi bv

/-- `np.argmax` of a 1-D array: index of the first maximal entry.
(numpy raises on an empty array; callers guard that case.) -/
def rowArgmax : List ℚ → Nat
  | [] => 0
  | x :: xs => argmaxFrom xs 1 0 x

/-- `np.argmax(preds, axis=1)` on a 2-D array (line 39): the per-row argmax
indices; raises `ValueError` when a row is empty. -/
def npArgmaxAxis1 (a : List (List ℚ)) : Except String (List Nat) :=
  if a.any List.isEmpty then
    Except.error "ValueError: attempt to get argmax of an empty sequence"
  else
    Except.ok (a.map rowArgmax)

/-- `np.max(preds)` over the whole 2-D array (line 41); raises `ValueError`
on a zero-size array. -/
def npMax (a : List (List ℚ)) : Except String ℚ :=
  match a.flatten with
  | [] => Except.error "ValueError: zero-size array to reduction operation maximum"
  | x :: xs => Except.ok (List.foldl max x xs)

/-- Round to the nearest integer, ties to even, as `printf`-style float
formatting does on the decimal digit. -/
def rndHalfEven (q : ℚ) : ℤ :=
  let f := Int.floor q
  let r := q - f
  if r < 1 / 2 then f
  else if 1 / 2 < r then f + 1
  else if f % 2 = 0 then f else f + 1

/-- The four zero-padded decimal digits of `m % 10000`. -/
def frac4Chars (m : Nat) : List Char :=
  [Nat.digitChar (m / 1000 % 10), Nat.digitChar (m / 100 % 10),
   Nat.digitChar (m / 10 % 10), Nat.digitChar (m % 10)]

/-- Python `f"{q:.4f}"`: fixed-point with exactly four digits after the
decimal point, rounding ties to even. -/
def format4Chars (q : ℚ) : List Char :=
  let n := rndHalfEven (q * 10000)
  let m := n.natAbs
  (if q < 0 then ['-'] else []) ++ (toString (m / 10000)).data ++ '.' :: frac4Chars (m % 10000)

/-- String form of `format4Chars`. -/
def format4 (q : ℚ) : String := String.mk (format4Chars q)

/-- Number of characters after the last `.` of a string (its count of
decimal places). -/
def fracDigits (s : String) : Nat :=
  (s.data.reverse.takeWhile (fun c => c ≠ '.')).length

/-- A decoded RGB raster image: PIL `Image ... .convert('RGB')` output.
Each pixel channel is an 8-bit value. -/
structure RGBImage where
  height : Nat
  width : Nat
  pixel : Nat → Nat → Fin 3 → Fin 256

/-- An oracle for PIL `img.resize`: given the source image and the target
width and height, produce the resampled channel value at (row, column,
channel). PIL guarantees the result has exactly the requested size and
stays 8-bit per channel, which the type records. -/
def Resampler := RGBImage → Nat → Nat → Nat → Nat → Fin 3 → Fin 256

/-- `np.array(img) / 255.0` for an RGB image: rows × columns × 3 channels,
each channel divided by 255 (line 18). -/
def toTensor (img : RGBImage) : List (List (List ℚ)) :=
  (List.range img.height).map fun y =>
    (List.range img.width).map fun x =>
      (List.finRange 3).map fun c => ((img.pixel y x c : ℕ) : ℚ) / 255

/-- Lines 15-19 of predict.py. `openRGB` models
`Image.open(BytesIO(img_bytes)).convert('RGB')` (fallible: corrupt bytes
raise), `resample` models `img.resize(target_size)`; the division by 255.0
and `np.expand_dims(_, axis=0)` are the final two lines. In the source the
target size defaults to `(150, 150)` (width, height). -/
def load_and_preprocess_image_from_bytes (openRGB : List Nat → Except String RGBImage)
    (resample : Resampler) (img_bytes : List Nat) (target : Nat × Nat) :
    Except String (List (List (List (List ℚ)))) :=
  match openRGB img_bytes with
  | Except.error e => Except.error e
  | Except.ok img =>
      let resized : RGBImage :=
        { height := target.2, width := target.1,
          pixel := fun y x c => resample img target.1 target.2 y x c }
      Except.ok [toTensor resized]

/-- The external calls the script makes, as oracles. -/
structure Oracles where
  readFile : String → Except String String
  b64decode : String → Except String (List Nat)
  loadModel : String → Except String (List (List (List (List ℚ))) → Except String (List (List ℚ)))
  openRGB : List Nat → Except String RGBImage
  resample : Resampler

/-- How a run of the script ends: lines printed to stdout, and either a
normal exit with a status code or an abnormal termination by an unhandled
exception. -/
inductive RunResult where
  | exited (output : List String) (code : Nat)
  | crashed (output : List String) (err : String)
deriving DecidableEq

/-- Lines 33-43 of predict.py: everything after the base64 decode.
Load the model, preprocess, predict, take the row-0 argmax, look the label
up in `class_names` (Python list indexing raises `IndexError` out of
bounds), take the overall max as the confidence, and print. -/
def afterDecode (O : Oracles) (img_bytes : List Nat) : RunResult :=
  match O.loadModel model_path with
  | Except.error e => RunResult.crashed [] e
  | Except.ok model =>
    match load_and_preprocess_image_from_bytes O.openRGB O.resample img_bytes (150, 150) with
    | Except.error e => RunResult.crashed [] e
    | Except.ok img_array =>
      match model img_array with
      | Except.error e => RunResult.crashed [] e
      | Except.ok preds =>
        match npArgmaxAxis1 preds with
        | Except.error e => RunResult.crashed [] e
        | Except.ok idxs =>
          match idxs with
          | [] => RunResult.crashed [] "IndexError: index 0 is out of bounds for axis 0 with size 0"
          | predicted_index :: _ =>
            match class_names[predicted_index]? with
            | none => RunResult.crashed [] "IndexError: list index out of range"
            | some predicted_label =>
              match npMax preds with
              | Except.error e => RunResult.crashed [] e
              | Except.ok confidence =>
                  RunResult.exited [predicted_label ++ "|" ++ format4 confidence] 0

/-- Lines 21-43 of predict.py: with fewer than two entries in `sys.argv`
print the sentinel and exit 1; otherwise read the file named by
`sys.argv[1]`, strip, base64-decode, and continue with `afterDecode`.
Falling out of `main` ends the process with status 0. -/
def main (O : Oracles) (argv : List String) : RunResult :=
  match argv with
  | _ :: b64_file_path :: _ =>
    match O.readFile b64_file_path with
    | Except.error e => RunResult.crashed [] e
    | Except.ok content =>
      match O.b64decode (pyStrip content) with
      | Except.error e => RunResult.crashed [] e
      | Except.ok img_bytes => afterDecode O img_bytes
  | _ => RunResult.exited ["Error|0.0"] 1

/-- Line 2 of predict.py: `os.environ['TF_CPP_MIN_LOG_LEVEL'] = '3'`, the
only write the script makes to the environment, modelled as a map update. -/
def scriptEnvEffect (env : String → Option String) : String → Option String :=
  fun k => if k = "TF_CPP_MIN_LOG_LEVEL" then some "3" else env k

/-- A whole script invocation: the environment after the import-time
assignment, together with the result of `main` (which never reads the
environment). -/
def runScript (env : String → Option String) (O : Oracles) (argv : List String) :
    (String → Option String) × RunResult :=
  (scriptEnvEffect env, main O argv)

/-- Concrete oracles where every step succeeds; the model returns the fixed
prediction array `preds` on every input. -/
def okOracles (preds : List (List ℚ)) : Oracles where
  readFile := fun _ => Except.ok ""
  b64decode := fun _ => Except.ok []
  loadModel := fun _ => Except.ok fun _ => Except.ok preds
  openRGB := fun _ => Except.ok { height := 1, width := 1, pixel := fun _ _ _ => 0 }
  resample := fun _ _ _ _ _ _ => 0

/-- Concrete oracles where opening the input file raises. -/
def fileErrOracles : Oracles :=
  { okOracles [[1, 0]] with
    readFile := fun _ => Except.error "FileNotFoundError: no such file or directory" }

/-- Concrete oracles where the base64 decode raises. -/
def b64ErrOracles : Oracles :=
  { okOracles [[1, 0]] with
    b64decode := fun _ => Except.error "binascii.Error: Invalid base64-encoded string" }

/-- Concrete oracles with a whitespace-padded payload whose base64 decode
raises. -/
def b64ErrWsOracles : Oracles :=
  { okOracles [[1, 0]] with
    readFile := fun _ => Except.ok " QUJD\n"
    b64decode := fun _ => Except.error "binascii.Error: Invalid base64-encoded string" }

end Predict

namespace Predict

/-- Invariant of the `argmaxFrom` scan: starting from a champion index that
points at the champion value inside the prefix already scanned, the final
index is in bounds for the whole list and points at the running maximum. -/
lemma argmaxFrom_spec (xs : List ℚ) : ∀ (pre : List ℚ) (bi : Nat) (bv : ℚ),
    bi < pre.length → pre[bi]? = some bv →
    argmaxFrom xs pre.length bi bv < (pre ++ xs).length ∧
    (pre ++ xs)[argmaxFrom xs pre.length bi bv]? = some (List.foldl max bv xs) := by
  induction xs with
  | nil =>
    intro pre bi bv hlt hget
    simp only [argmaxFrom, List.append_nil, List.foldl_nil]
    exact ⟨hlt, hget⟩
  | cons x xs ih =>
    intro pre bi bv hlt hget
    have hlen : (pre ++ [x]).length = pre.length + 1 := by simp
    simp only [argmaxFrom, List.foldl_cons]
    by_cases hx : bv < x
    · simp only [hx, if_true]
      have hkey := ih (pre ++ [x]) pre.length x (by simp) (by simp)
      rw [hlen, List.append_assoc, List.singleton_append] at hkey
      rw [max_eq_right (le_of_lt hx)]
      exact hkey
    · simp only [hx, if_false]
      have hbi : bi < (pre ++ [x]).length := by omega
      have hget2 : (pre ++ [x])[bi]? = some bv := by
        rw [List.getElem?_append_left hlt]
        exact hget
      have hkey := ih (pre ++ [x]) bi bv hbi hget2
      rw [hlen, List.append_assoc, List.singleton_append] at hkey
      rw [max_eq_left (le_of_not_lt hx)]
      exact hkey

/-- `rowArgmax` of a nonempty row is in bounds and points at the row
maximum. -/
lemma rowArgmax_spec (x : ℚ) (xs : List ℚ) :
    rowArgmax (x :: xs) < (x :: xs).length ∧
    (x :: xs)[rowArgmax (x :: xs)]? = some (List.foldl max x xs) := by
  have h := argmaxFrom_spec xs [x] 0 x (by simp) (by simp)
  simpa only [rowArgmax, List.length_singleton, List.singleton_append] using h

/-- The left fold of `max` over a list is one of its elements. -/
lemma foldl_max_mem (xs : List ℚ) : ∀ x : ℚ, List.foldl max x xs ∈ x :: xs := by
  induction xs with
  | nil => intro x; simp
  | cons y ys ih =>
    intro x
    rw [List.foldl_cons]
    rcases List.mem_cons.mp (ih (max x y)) with h1 | h1
    · rcases max_choice x y with hc | hc
      · exact List.mem_cons.mpr (Or.inl (h1.trans hc))
      · exact List.mem_cons.mpr (Or.inr (List.mem_cons.mpr (Or.inl (h1.trans hc))))
    · exact List.mem_cons.mpr (Or.inr (List.mem_cons.mpr (Or.inr h1)))

/-- C10: when the prediction array has exactly one (nonempty) row, the
row-0 argmax computed on line 39 is in bounds for the row, the overall
`np.max` of line 41 succeeds and equals the entry of the row at the
predicted index — so the printed label and confidence refer to the same
class — and for a 2-entry row the predicted index is a valid index into
the 2-element `class_names` list. -/
theorem C10_confidence_matches_predicted_index (row : List ℚ) (h : row ≠ []) :
    rowArgmax row < row.length ∧
    (row.length = 2 → rowArgmax row < class_names.length) ∧
    ∃ c, npMax [row] = Except.ok c ∧ row[rowArgmax row]? = some c := by
  obtain ⟨x, xs, rfl⟩ := List.exists_cons_of_ne_nil h
  obtain ⟨hlt, hpt⟩ := rowArgmax_spec x xs
  refine ⟨hlt, ?_, List.foldl max x xs, ?_, hpt⟩
  · intro hlen
    rw [hlen] at hlt
    simpa [class_names] using hlt
  · simp [npMax]

/-- Witness for C10 at the concrete row `[2, 8]`: the argmax index is 1,
in bounds, and `np.max` returns the row entry at index 1. -/
theorem C10_confidence_matches_predicted_index_witness :
    rowArgmax [(2 : ℚ), 8] < 2 ∧
    (([(2 : ℚ), 8] : List ℚ).length = 2 → rowArgmax [(2 : ℚ), 8] < class_names.length) ∧
    ∃ c, npMax [[(2 : ℚ), 8]] = Except.ok c ∧ [(2 : ℚ), 8][rowArgmax [(2 : ℚ), 8]]? = some c :=
  C10_confidence_matches_predicted_index [(2 : ℚ), 8] (List.cons_ne_nil _ _)

/-- Shared success-path computation: when the file read, base64 decode,
model load, image decode and forward pass all succeed and the prediction
rows are nonempty with the row-0 argmax in bounds for `class_names`, the
run prints exactly the label at the argmax index and the formatted overall
maximum, then exits 0. -/
lemma main_success (O : Oracles) (prog path content : String) (rest : List String)
    (img_bytes : List Nat)
    (m : List (List (List (List ℚ))) → Except String (List (List ℚ)))
    (t : List (List (List (List ℚ)))) (row : List ℚ) (rows : List (List ℚ))
    (h1 : O.readFile path = Except.ok content)
    (h2 : O.b64decode (pyStrip content) = Except.ok img_bytes)
    (h3 : O.loadModel model_path = Except.ok m)
    (h4 : load_and_preprocess_image_from_bytes O.openRGB O.resample img_bytes (150, 150) =
      Except.ok t)
    (h5 : m t = Except.ok (row :: rows))
    (hall : ∀ r ∈ row :: rows, r ≠ ([] : List ℚ))
    (hidx : rowArgmax row < class_names.length) :
    ∃ label c, class_names[rowArgmax row]? = some label ∧
      npMax (row :: rows) = Except.ok c ∧
      main O (prog :: path :: rest) = RunResult.exited [label ++ "|" ++ format4 c] 0 := by
  obtain ⟨x, xs, rfl⟩ := List.exists_cons_of_ne_nil (hall row (List.mem_cons_self _ _))
  have hany : ((x :: xs) :: rows).any List.isEmpty = false := by
    rw [List.any_eq_false]
    intro r hr
    cases r with
    | nil => exact absurd rfl (hall [] hr)
    | cons a as => simp
  have hargmax : npArgmaxAxis1 ((x :: xs) :: rows) =
      Except.ok (rowArgmax (x :: xs) :: rows.map rowArgmax) := by
    simp [npArgmaxAxis1, hany]
  obtain ⟨label, hlab⟩ : ∃ label, class_names[rowArgmax (x :: xs)]? = some label :=
    ⟨_, List.getElem?_eq_getElem hidx⟩
  have hmax : npMax ((x :: xs) :: rows) =
      Except.ok (List.foldl max x (xs ++ rows.flatten)) := by
    simp [npMax]
  refine ⟨label, _, hlab, hmax, ?_⟩
  simp only [main, h1, h2, afterDecode, h3, h4, h5, hargmax, hlab, hmax]

/-- C1: with a 2-entry prediction row `[a, b]`, the program picks the index
of the strictly larger entry (a tie keeps index 0, the lowest), maps it
through `class_names = [Marigold, Scarlet Sage]`, and prints the maximum
entry as the confidence. -/
theorem C1_two_class_argmax (O : Oracles) (prog path content : String)
    (rest : List String) (img_bytes : List Nat)
    (m : List (List (List (List ℚ))) → Except String (List (List ℚ)))
    (t : List (List (List (List ℚ)))) (a b : ℚ)
    (h1 : O.readFile path = Except.ok content)
    (h2 : O.b64decode (pyStrip content) = Except.ok img_bytes)
    (h3 : O.loadModel model_path = Except.ok m)
    (h4 : load_and_preprocess_image_from_bytes O.openRGB O.resample img_bytes (150, 150) =
      Except.ok t)
    (h5 : m t = Except.ok [[a, b]]) :
    main O (prog :: path :: rest) =
      RunResult.exited
        [(if a < b then "Scarlet Sage" else "Marigold") ++ "|" ++ format4 (max a b)] 0 := by
  have hargix : rowArgmax [a, b] = if a < b then 1 else 0 := by
    by_cases hab : a < b <;> simp [rowArgmax, argmaxFrom, hab]
  have hidx : rowArgmax [a, b] < class_names.length := by
    rw [hargix]
    by_cases hab : a < b <;> simp [hab, class_names]
  obtain ⟨label, c, hlab, hmax, hmain⟩ :=
    main_success O prog path content rest img_bytes m t [a, b] [] h1 h2 h3 h4 h5
      (by simp) hidx
  have hc : c = max a b := by
    simp [npMax] at hmax
    exact hmax.symm
  have hl : label = if a < b then "Scarlet Sage" else "Marigold" := by
    rw [hargix] at hlab
    by_cases hab : a < b
    · rw [if_pos hab]
      simp [hab, class_names] at hlab
      exact hlab.symm
    · rw [if_neg hab]
      simp [hab, class_names] at hlab
      exact hlab.symm
  rw [hmain, hc, hl]

/-- Witness for C1: with the prediction vector `[0.9, 0.1]` the output is
`Marigold|0.9000`, and with `[0.2, 0.8]` it is `Scarlet Sage|0.8000`. -/
theorem C1_two_class_argmax_witness :
    main (okOracles [[(9 : ℚ)/10, 1/10]]) ["predict.py", "img.b64"] =
      RunResult.exited ["Marigold|0.9000"] 0 ∧
    main (okOracles [[(2 : ℚ)/10, 8/10]]) ["predict.py", "img.b64"] =
      RunResult.exited ["Scarlet Sage|0.8000"] 0 := by
  constructor
  · have h := C1_two_class_argmax (okOracles [[(9 : ℚ)/10, 1/10]]) "predict.py" "img.b64"
      "" [] [] _ _ ((9 : ℚ)/10) (1/10) rfl rfl rfl rfl rfl
    rw [h]
    norm_num [format4, format4Chars, rndHalfEven, frac4Chars]
    decide
  · have h := C1_two_class_argmax (okOracles [[(2 : ℚ)/10, 8/10]]) "predict.py" "img.b64"
      "" [] [] _ _ ((2 : ℚ)/10) (8/10) rfl rfl rfl rfl rfl
    rw [h]
    norm_num [format4, format4Chars, rndHalfEven, frac4Chars]
    decide

/-- Taking characters while not `.` from a dot-free block followed by a
dot returns exactly the block. -/
lemma takeWhile_ne_dot_append (l₁ l₂ : List Char) (h : ∀ c ∈ l₁, c ≠ '.') :
    List.takeWhile (fun c => c ≠ '.') (l₁ ++ '.' :: l₂) = l₁ := by
  induction l₁ with
  | nil => simp
  | cons a as ih =>
    have ha : a ≠ '.' := h a (List.mem_cons_self _ _)
    have has : ∀ c ∈ as, c ≠ '.' := fun c hc => h c (List.mem_cons_of_mem _ hc)
    rw [List.cons_append, List.takeWhile_cons, ih has]
    simp [ha]

/-- A decimal digit character is never the decimal point. -/
lemma digitChar_ne_dot : ∀ d : Nat, d < 10 → Nat.digitChar d ≠ '.' := by decide

/-- The four fractional characters are digits, never the decimal point. -/
lemma frac4Chars_ne_dot (m : Nat) : ∀ c ∈ frac4Chars m, c ≠ '.' := by
  intro c hc
  simp only [frac4Chars, List.mem_cons, List.not_mem_nil, or_false] at hc
  rcases hc with h | h | h | h <;>
    · rw [h]
      exact digitChar_ne_dot _ (Nat.mod_lt _ (by norm_num))

/-- Python `:.4f` formatting always produces exactly four characters after
the decimal point. -/
lemma fracDigits_format4 (q : ℚ) : fracDigits (format4 q) = 4 := by
  show (((format4Chars q).reverse).takeWhile (fun c => c ≠ '.')).length = 4
  show ((((if q < 0 then ['-'] else []) ++ (toString ((rndHalfEven (q * 10000)).natAbs / 10000)).data ++
      '.' :: frac4Chars ((rndHalfEven (q * 10000)).natAbs % 10000)).reverse).takeWhile
      (fun c => c ≠ '.')).length = 4
  rw [List.append_assoc, List.reverse_append, List.reverse_append, List.reverse_cons,
    List.append_assoc, List.append_assoc, List.singleton_append]
  rw [takeWhile_ne_dot_append _ _
    (fun c hc => frac4Chars_ne_dot _ c (List.mem_reverse.mp hc))]
  simp [frac4Chars]

/-- C3: on a successful run (argument present, every pipeline step
succeeds), the program prints exactly one line of the form
`<label>|<confidence>` with the confidence formatted to exactly four
decimal places, and exits with status 0. -/
theorem C3_success_single_line_format (O : Oracles) (prog path content : String)
    (rest : List String) (img_bytes : List Nat)
    (m : List (List (List (List ℚ))) → Except String (List (List ℚ)))
    (t : List (List (List (List ℚ)))) (row : List ℚ) (rows : List (List ℚ))
    (h1 : O.readFile path = Except.ok content)
    (h2 : O.b64decode (pyStrip content) = Except.ok img_bytes)
    (h3 : O.loadModel model_path = Except.ok m)
    (h4 : load_and_preprocess_image_from_bytes O.openRGB O.resample img_bytes (150, 150) =
      Except.ok t)
    (h5 : m t = Except.ok (row :: rows))
    (hall : ∀ r ∈ row :: rows, r ≠ ([] : List ℚ))
    (hidx : rowArgmax row < class_names.length) :
    ∃ label confidence,
      label ∈ class_names ∧
      main O (prog :: path :: rest) =
        RunResult.exited [label ++ "|" ++ format4 confidence] 0 ∧
      fracDigits (format4 confidence) = 4 := by
  obtain ⟨label, c, hlab, hmax, hmain⟩ :=
    main_success O prog path content rest img_bytes m t row rows h1 h2 h3 h4 h5 hall hidx
  exact ⟨label, c, List.getElem?_mem hlab, hmain, fracDigits_format4 c⟩

/-- Witness for C3 at concrete oracles with prediction `[[1, 0]]`. -/
theorem C3_success_single_line_format_witness :
    ∃ label confidence,
      label ∈ class_names ∧
      main (okOracles [[(1 : ℚ), 0]]) ["predict.py", "img.b64"] =
        RunResult.exited [label ++ "|" ++ format4 confidence] 0 ∧
      fracDigits (format4 confidence) = 4 :=
  C3_success_single_line_format (okOracles [[(1 : ℚ), 0]]) "predict.py" "img.b64" "" []
    [] _ _ [(1 : ℚ), 0] [] rfl rfl rfl rfl rfl (by decide)
    (by norm_num [rowArgmax, argmaxFrom, class_names])

/-- A value returned by `npMax` is an entry of the array. -/
lemma npMax_mem (a : List (List ℚ)) (c : ℚ) (h : npMax a = Except.ok c) :
    c ∈ a.flatten := by
  unfold npMax at h
  cases hfl : a.flatten with
  | nil =>
    rw [hfl] at h
    exact absurd h (by simp)
  | cons x xs =>
    rw [hfl] at h
    simp only [Except.ok.injEq] at h
    rw [← h]
    exact foldl_max_mem xs x

/-- C6: whenever the model's output values lie in `[0, 1]` (the spec's
data model: a probability distribution over the classes) and the run
produces success-format output, the printed confidence lies in `[0, 1]`. -/
theorem C6_confidence_in_unit_interval (O : Oracles) (prog path content : String)
    (rest : List String) (img_bytes : List Nat)
    (m : List (List (List (List ℚ))) → Except String (List (List ℚ)))
    (t : List (List (List (List ℚ)))) (row : List ℚ) (rows : List (List ℚ))
    (h1 : O.readFile path = Except.ok content)
    (h2 : O.b64decode (pyStrip content) = Except.ok img_bytes)
    (h3 : O.loadModel model_path = Except.ok m)
    (h4 : load_and_preprocess_image_from_bytes O.openRGB O.resample img_bytes (150, 150) =
      Except.ok t)
    (h5 : m t = Except.ok (row :: rows))
    (hall : ∀ r ∈ row :: rows, r ≠ ([] : List ℚ))
    (hidx : rowArgmax row < class_names.length)
    (hprob : ∀ r ∈ row :: rows, ∀ v ∈ r, 0 ≤ v ∧ v ≤ 1) :
    ∃ label confidence,
      main O (prog :: path :: rest) =
        RunResult.exited [label ++ "|" ++ format4 confidence] 0 ∧
      0 ≤ confidence ∧ confidence ≤ 1 := by
  obtain ⟨label, c, hlab, hmax, hmain⟩ :=
    main_success O prog path content rest img_bytes m t row rows h1 h2 h3 h4 h5 hall hidx
  obtain ⟨r, hr, hcr⟩ := List.mem_flatten.mp (npMax_mem _ _ hmax)
  obtain ⟨hlo, hhi⟩ := hprob r hr c hcr
  exact ⟨label, c, hmain, hlo, hhi⟩

/-- Witness for C6 at concrete oracles with prediction `[[1, 0]]`. -/
theorem C6_confidence_in_unit_interval_witness :
    ∃ label confidence,
      main (okOracles [[(1 : ℚ), 0]]) ["predict.py", "img.b64"] =
        RunResult.exited [label ++ "|" ++ format4 confidence] 0 ∧
      0 ≤ confidence ∧ confidence ≤ 1 :=
  C6_confidence_in_unit_interval (okOracles [[(1 : ℚ), 0]]) "predict.py" "img.b64" "" []
    [] _ _ [(1 : ℚ), 0] [] rfl rfl rfl rfl rfl (by decide)
    (by norm_num [rowArgmax, argmaxFrom, class_names])
    (by
      intro r hr v hv
      simp only [List.mem_cons, List.not_mem_nil, or_false] at hr
      subst hr
      simp only [List.mem_cons, List.not_mem_nil, or_false] at hv
      rcases hv with h | h <;> rw [h] <;> norm_num)

/-- C4: whenever the image bytes decode successfully, preprocessing
produces a tensor of shape `(1, 150, 150, 3)` with every value in
`[0, 1]`. -/
theorem C4_preprocess_shape_and_range (openRGB : List Nat → Except String RGBImage)
    (resample : Resampler) (img_bytes : List Nat) (img : RGBImage)
    (h : openRGB img_bytes = Except.ok img) :
    ∃ t, load_and_preprocess_image_from_bytes openRGB resample img_bytes (150, 150) =
        Except.ok t ∧
      t.length = 1 ∧
      ∀ plane ∈ t, plane.length = 150 ∧
        ∀ row ∈ plane, row.length = 150 ∧
          ∀ px ∈ row, px.length = 3 ∧
            ∀ v ∈ px, 0 ≤ v ∧ v ≤ 1 := by
  refine ⟨[toTensor
      { height := 150, width := 150, pixel := fun y x c => resample img 150 150 y x c }],
    by simp only [load_and_preprocess_image_from_bytes, h], rfl, ?_⟩
  intro plane hplane
  simp only [List.mem_cons, List.not_mem_nil, or_false] at hplane
  subst hplane
  refine ⟨by simp [toTensor], ?_⟩
  intro row hrow
  simp only [toTensor, List.mem_map, List.mem_range] at hrow
  obtain ⟨y, _, rfl⟩ := hrow
  refine ⟨by simp, ?_⟩
  intro px hpx
  simp only [List.mem_map, List.mem_range] at hpx
  obtain ⟨x, _, rfl⟩ := hpx
  refine ⟨by simp [List.length_finRange], ?_⟩
  intro v hv
  simp only [List.mem_map] at hv
  obtain ⟨ch, _, rfl⟩ := hv
  constructor
  · exact div_nonneg (Nat.cast_nonneg _) (by norm_num)
  · rw [div_le_one (by norm_num : (0 : ℚ) < 255)]
    have hlt : ((resample img 150 150 y x ch : ℕ) : ℚ) ≤ ((255 : ℕ) : ℚ) :=
      Nat.cast_le.mpr (Nat.lt_succ_iff.mp (Fin.isLt _))
    simpa using hlt

/-- Witness for C4 at a concrete 1×1 image decoder and constant
resampler. -/
theorem C4_preprocess_shape_and_range_witness :
    ∃ t, load_and_preprocess_image_from_bytes
        (fun _ => Except.ok { height := 1, width := 1, pixel := fun _ _ _ => 0 })
        (fun _ _ _ _ _ _ => 0) [] (150, 150) = Except.ok t ∧
      t.length = 1 ∧
      ∀ plane ∈ t, plane.length = 150 ∧
        ∀ row ∈ plane, row.length = 150 ∧
          ∀ px ∈ row, px.length = 3 ∧
            ∀ v ∈ px, 0 ≤ v ∧ v ≤ 1 :=
  C4_preprocess_shape_and_range
    (fun _ => Except.ok { height := 1, width := 1, pixel := fun _ _ _ => 0 })
    (fun _ _ _ _ _ _ => 0) [] { height := 1, width := 1, pixel := fun _ _ _ => 0 } rfl

/-- Any crash of the post-decode pipeline happens before the single print
statement, so nothing has been written to stdout. -/
lemma afterDecode_crash_empty (O : Oracles) (img_bytes : List Nat)
    (out : List String) (err : String)
    (h : afterDecode O img_bytes = RunResult.crashed out err) : out = [] := by
  unfold afterDecode at h
  repeat' split at h
  all_goals first
    | (injection h with h1 h2; exact h1.symm)
    | exact absurd h (by simp)

/-- C5: with an argument present, every pipeline failure (file read,
base64 decode, model load, image decode, forward pass) propagates as an
uncaught exception: the run ends in `crashed` with the raised error and an
empty stdout — neither the sentinel `Error|0.0` nor any success-format
line is printed; and more generally any abnormal termination of such a run
prints nothing. -/
theorem C5_unhandled_failures_crash (O : Oracles) (prog path : String)
    (rest : List String) :
    (∀ e, O.readFile path = Except.error e →
        main O (prog :: path :: rest) = RunResult.crashed [] e) ∧
    (∀ content e, O.readFile path = Except.ok content →
        O.b64decode (pyStrip content) = Except.error e →
        main O (prog :: path :: rest) = RunResult.crashed [] e) ∧
    (∀ content img_bytes e, O.readFile path = Except.ok content →
        O.b64decode (pyStrip content) = Except.ok img_bytes →
        O.loadModel model_path = Except.error e →
        main O (prog :: path :: rest) = RunResult.crashed [] e) ∧
    (∀ content img_bytes m e, O.readFile path = Except.ok content →
        O.b64decode (pyStrip content) = Except.ok img_bytes →
        O.loadModel model_path = Except.ok m →
        O.openRGB img_bytes = Except.error e →
        main O (prog :: path :: rest) = RunResult.crashed [] e) ∧
    (∀ content img_bytes m t e, O.readFile path = Except.ok content →
        O.b64decode (pyStrip content) = Except.ok img_bytes →
        O.loadModel model_path = Except.ok m →
        load_and_preprocess_image_from_bytes O.openRGB O.resample img_bytes (150, 150) =
          Except.ok t →
        m t = Except.error e →
        main O (prog :: path :: rest) = RunResult.crashed [] e) ∧
    (∀ out err, main O (prog :: path :: rest) = RunResult.crashed out err → out = []) := by
  refine ⟨?_, ?_, ?_, ?_, ?_, ?_⟩
  · intro e h1
    simp only [main, h1]
  · intro content e h1 h2
    simp only [main, h1, h2]
  · intro content img_bytes e h1 h2 h3
    simp only [main, h1, h2, afterDecode, h3]
  · intro content img_bytes m e h1 h2 h3 h4
    simp only [main, h1, h2, afterDecode, h3, load_and_preprocess_image_from_bytes, h4]
  · intro content img_bytes m t e h1 h2 h3 h4 h5
    simp only [main, h1, h2, afterDecode, h3, h4, h5]
  · intro out err h
    simp only [main] at h
    repeat' split at h
    all_goals first
      | (injection h with h1 h2; exact h1.symm)
      | exact afterDecode_crash_empty O _ out err h

/-- Witness for C5: a failing file read and a failing base64 decode each
end the run in a crash with empty stdout. -/
theorem C5_unhandled_failures_crash_witness :
    main fileErrOracles ["predict.py", "img.b64"] =
      RunResult.crashed [] "FileNotFoundError: no such file or directory" ∧
    main b64ErrOracles ["predict.py", "img.b64"] =
      RunResult.crashed [] "binascii.Error: Invalid base64-encoded string" :=
  ⟨(C5_unhandled_failures_crash fileErrOracles "predict.py" "img.b64" []).1 _ rfl,
   (C5_unhandled_failures_crash b64ErrOracles "predict.py" "img.b64" []).2.1 "" _ rfl rfl⟩

/-- The head of `dropWhile p` never satisfies `p`. -/
lemma head_dropWhile_false (p : Char → Bool) (l : List Char) (c : Char)
    (h : (l.dropWhile p).head? = some c) : p c = false := by
  induction l with
  | nil => simp [List.dropWhile] at h
  | cons a as ih =>
    rw [List.dropWhile_cons] at h
    by_cases hp : p a = true
    · rw [if_pos hp] at h
      exact ih h
    · rw [if_neg hp] at h
      simp only [List.head?_cons, Option.some.injEq] at h
      rw [← h]
      exact Bool.eq_false_iff.mpr hp

/-- A nonempty suffix has the same last element as the whole list. -/
lemma getLast?_of_suffix (l₁ l₂ : List Char) (h : l₁ <:+ l₂) (c : Char)
    (hc : l₁.getLast? = some c) : l₂.getLast? = some c := by
  obtain ⟨t, rfl⟩ := h
  have hne : l₁ ≠ [] := by
    intro he
    rw [he] at hc
    simp at hc
  rw [List.getLast?_append_of_ne_nil t hne]
  exact hc

/-- C7: given a path argument and a successful file read, the run
base64-decodes exactly the whitespace-stripped file contents; a decode
failure propagates uncaught, a decode success continues the pipeline on
the decoded bytes; and the string passed to the decoder is the file
contents with (only) leading and trailing whitespace removed. -/
theorem C7_read_strip_decode (O : Oracles) (prog path content : String)
    (rest : List String) (h1 : O.readFile path = Except.ok content) :
    (∀ img_bytes, O.b64decode (pyStrip content) = Except.ok img_bytes →
        main O (prog :: path :: rest) = afterDecode O img_bytes) ∧
    (∀ e, O.b64decode (pyStrip content) = Except.error e →
        main O (prog :: path :: rest) = RunResult.crashed [] e) ∧
    (∃ ld tr, content.data = ld ++ (pyStrip content).data ++ tr ∧
        (∀ c ∈ ld, isPyWhitespace c = true) ∧
        (∀ c ∈ tr, isPyWhitespace c = true)) ∧
    (∀ c, (pyStrip content).data.head? = some c → isPyWhitespace c = false) ∧
    (∀ c, (pyStrip content).data.getLast? = some c → isPyWhitespace c = false) := by
  refine ⟨?_, ?_, ?_, ?_, ?_⟩
  · intro img_bytes h2
    simp only [main, h1, h2]
  · intro e h2
    simp only [main, h1, h2]
  · refine ⟨content.data.takeWhile isPyWhitespace,
      ((content.data.dropWhile isPyWhitespace).reverse.takeWhile isPyWhitespace).reverse,
      ?_, ?_, ?_⟩
    · show content.data =
        content.data.takeWhile isPyWhitespace ++
          ((content.data.dropWhile isPyWhitespace).reverse.dropWhile
            isPyWhitespace).reverse ++
          ((content.data.dropWhile isPyWhitespace).reverse.takeWhile
            isPyWhitespace).reverse
      conv_lhs =>
        rw [← List.takeWhile_append_dropWhile isPyWhitespace content.data,
          ← List.reverse_reverse (content.data.dropWhile isPyWhitespace),
          ← List.takeWhile_append_dropWhile isPyWhitespace
            (content.data.dropWhile isPyWhitespace).reverse,
          List.reverse_append]
      rw [List.append_assoc]
    · intro c hc
      exact List.mem_takeWhile_imp hc
    · intro c hc
      exact List.mem_takeWhile_imp (List.mem_reverse.mp hc)
  · intro c hc
    have hx : ((content.data.dropWhile isPyWhitespace).reverse.dropWhile
        isPyWhitespace).getLast? = some c := by
      rw [← List.head?_reverse]
      exact hc
    have hd : (content.data.dropWhile isPyWhitespace).reverse.getLast? = some c :=
      getLast?_of_suffix _ _ (List.dropWhile_suffix isPyWhitespace) c hx
    rw [List.getLast?_reverse] at hd
    exact head_dropWhile_false isPyWhitespace content.data c hd
  · intro c hc
    have hc2 : ((content.data.dropWhile isPyWhitespace).reverse.dropWhile
        isPyWhitespace).reverse.getLast? = some c := hc
    rw [List.getLast?_reverse] at hc2
    exact head_dropWhile_false isPyWhitespace
      (content.data.dropWhile isPyWhitespace).reverse c hc2

/-- Witness for C7: a concrete run whose base64 decode fails crashes with
nothing printed, and the stripped concrete payload `" QUJD\n"` starts with
a non-whitespace character. -/
theorem C7_read_strip_decode_witness :
    main b64ErrWsOracles ["predict.py", "img.b64"] =
      RunResult.crashed [] "binascii.Error: Invalid base64-encoded string" ∧
    (∀ c, (pyStrip " QUJD\n").data.head? = some c → isPyWhitespace c = false) :=
  ⟨(C7_read_strip_decode b64ErrWsOracles "predict.py" "img.b64" " QUJD\n" [] rfl).2.1
      _ rfl,
   (C7_read_strip_decode b64ErrWsOracles "predict.py" "img.b64" " QUJD\n" [] rfl).2.2.2.1⟩

/-- C2: with fewer than two entries in `sys.argv` (that is, zero
command-line arguments beyond the program name) the script prints exactly
the line `Error|0.0` and exits with status 1. -/
theorem C2_no_argument_sentinel (O : Oracles) (prog : String) :
    main O [prog] = RunResult.exited ["Error|0.0"] 1 ∧
    main O [] = RunResult.exited ["Error|0.0"] 1 :=
  ⟨rfl, rfl⟩

/-- C9: the script reads only `sys.argv[1]`; two invocations with the same
first command-line argument behave identically whatever the program name
and whatever further arguments are passed, so extra arguments are ignored
rather than rejected, and a many-argument invocation proceeds exactly as
the single-argument one. -/
theorem C9_extra_args_ignored (O : Oracles) (prog₁ prog₂ path : String)
    (rest₁ rest₂ : List String) :
    main O (prog₁ :: path :: rest₁) = main O (prog₂ :: path :: rest₂) ∧
    main O (prog₁ :: path :: rest₁) = main O (prog₁ :: [path]) :=
  ⟨rfl, rfl⟩

/-- C8: a script run sets `TF_CPP_MIN_LOG_LEVEL` to `"3"`, leaves every
other environment key unchanged, and its result does not depend on the
environment at all (no environment variable is consumed). -/
theorem C8_environment_frame (env env₂ : String → Option String) (O : Oracles)
    (argv : List String) (k : String) (hk : k ≠ "TF_CPP_MIN_LOG_LEVEL") :
    (runScript env O argv).1 "TF_CPP_MIN_LOG_LEVEL" = some "3" ∧
    (runScript env O argv).1 k = env k ∧
    (runScript env O argv).2 = (runScript env₂ O argv).2 := by
  refine ⟨rfl, ?_, rfl⟩
  simp [runScript, scriptEnvEffect, hk]

/-- Witness for C8 at a concrete environment and key. -/
theorem C8_environment_frame_witness :
    (runScript (fun _ => none) (okOracles [[1, 0]]) []).1 "TF_CPP_MIN_LOG_LEVEL" = some "3" ∧
    (runScript (fun _ => none) (okOracles [[1, 0]]) []).1 "PATH" = none ∧
    (runScript (fun _ => none) (okOracles [[1, 0]]) []).2 =
      (runScript (fun _ => some "x") (okOracles [[1, 0]]) []).2 :=
  C8_environment_frame (fun _ => none) (fun _ => some "x") (okOracles [[1, 0]]) [] "PATH"
    (by decide)

end Predict
